import Mathlib

/-!
Verification development for the MesaRPG vision tracking core.

Shallow embedding of:
  * `src/server/tracker.py`        (`TrackedObject`, `SORTTracker`)
  * `src/server/simple_tracker.py` (`TrackedMini._smooth_angle`)
  * `src/server/camera_manager.py` (`CalibrationData`)

Modelling conventions:
  * box coordinates, centers and confidences are exact rationals (`ℚ`);
  * association scores, angles and calibration coordinates are reals (`ℝ`),
    with `Real.sqrt` for `np.sqrt` and `Complex.arg` for `np.arctan2`;
  * a Python dict of detections becomes a structure with `Option` fields,
    a missing key being `none`; an operation that can raise (`KeyError`)
    returns an `Option`, `none` meaning the exception propagates;
  * the insertion-ordered `self.tracks` dict becomes an association list;
  * the wall-clock fields `last_seen` / `first_seen` (from `time.time()`)
    are not modelled: no claim mentions them;
  * the unbounded `while True` loop of `SORTTracker._match` becomes a
    fuel-indexed recursion; fuel `min M N + 1` is justified by the
    termination theorem for claim C9.
-/

namespace MesaRPG

/-- Axis-aligned bounding box, the `(x1, y1, x2, y2)` tuple of `tracker.py`. -/
structure Box where
  x1 : ℚ
  y1 : ℚ
  x2 : ℚ
  y2 : ℚ
deriving DecidableEq

/-- A box is well formed when its corners are ordered. -/
def Box.wf (b : Box) : Prop := b.x1 ≤ b.x2 ∧ b.y1 ≤ b.y2

/-- A raw detection dict as consumed by `SORTTracker.update`.  An `Option`
field is `none` when the corresponding key is missing from the dict. -/
structure Detection where
  bbox : Option Box
  class_name : Option String
  confidence : Option ℚ
  orientation : Option ℝ

/-- Python floor division by two, `(a + b) // 2` on exact values. -/
def pyHalf (a : ℚ) : ℚ := (⌊a / 2⌋ : ℤ)

/-- `collections.deque(maxlen := n).append`: append, evicting from the front
once the length would exceed `maxlen`. -/
def dequeAppend (maxlen : ℕ) (l : List α) (x : α) : List α :=
  if l.length + 1 ≤ maxlen then l ++ [x] else (l ++ [x]).drop (l.length + 1 - maxlen)

/-- `np.arctan2 y x`, as the argument of the complex number `x + y i`. -/
noncomputable def atan2 (y x : ℝ) : ℝ := Complex.arg ⟨x, y⟩

/-- `np.radians`. -/
noncomputable def deg2rad (a : ℝ) : ℝ := a * (Real.pi / 180)

/-- `np.degrees`. -/
noncomputable def rad2deg (a : ℝ) : ℝ := a * (180 / Real.pi)

/-- Python float `x % y` (for `y > 0`): `x - y * floor (x / y)`. -/
noncomputable def fmod (x y : ℝ) : ℝ := x - y * (⌊x / y⌋ : ℤ)

/-- `TrackedObject._circular_mean` from `tracker.py`: averaged sine and
cosine components recombined through `arctan2`, reduced mod 360. -/
noncomputable def circular_mean (angles : List ℝ) : ℝ :=
  if angles = [] then 0 else
    fmod (rad2deg (atan2
      ((angles.map (fun a => Real.sin (deg2rad a))).sum / angles.length)
      ((angles.map (fun a => Real.cos (deg2rad a))).sum / angles.length))) 360

/-- `TrackedMini._smooth_angle` from `simple_tracker.py`: summed (not
averaged) sine and cosine components recombined through `arctan2`. -/
noncomputable def smooth_angle (angles : List ℝ) : ℝ :=
  if angles = [] then 0 else
    fmod (rad2deg (atan2
      ((angles.map (fun a => Real.sin (deg2rad a))).sum)
      ((angles.map (fun a => Real.cos (deg2rad a))).sum))) 360

/-- The mutable state of one `TrackedObject` dataclass instance. -/
structure TrackedObject where
  id : ℕ
  class_name : String
  bbox : Box
  center : ℚ × ℚ
  confidence : ℚ
  orientation : ℝ
  position_history : List (ℚ × ℚ)
  orientation_history : List ℝ
  frames_tracked : ℕ
  frames_missing : ℕ
  is_active : Bool
  velocity : ℚ × ℚ

/-- `TrackedObject.update`: refresh geometry, histories, velocity and the
match counters from the matched detection. -/
noncomputable def TrackedObject.update (t : TrackedObject) (bbox : Box)
    (confidence : ℚ) (orientation : Option ℝ) : TrackedObject :=
  let center : ℚ × ℚ := (pyHalf (bbox.x1 + bbox.x2), pyHalf (bbox.y1 + bbox.y2))
  let ph := dequeAppend 10 t.position_history center
  let vel : ℚ × ℚ :=
    if 2 ≤ ph.length then
      let prev := ph.getD (ph.length - 2) (0, 0)
      (center.1 - prev.1, center.2 - prev.2)
    else t.velocity
  match orientation with
  | none =>
      { t with
        bbox := bbox, center := center, confidence := confidence,
        frames_tracked := t.frames_tracked + 1, frames_missing := 0, is_active := true,
        position_history := ph, velocity := vel }
  | some o =>
      let oh := dequeAppend 5 t.orientation_history o
      { t with
        bbox := bbox, center := center, confidence := confidence,
        frames_tracked := t.frames_tracked + 1, frames_missing := 0, is_active := true,
        position_history := ph, velocity := vel,
        orientation_history := oh, orientation := circular_mean oh }

/-- `TrackedObject.mark_missing`: one more frame without a match; after more
than 10 consecutive misses the object is flagged inactive (the constant 10 is
hard coded in the source, independent of the tracker's `max_age`). -/
def TrackedObject.mark_missing (t : TrackedObject) : TrackedObject :=
  let fm := t.frames_missing + 1
  { t with frames_missing := fm, is_active := if 10 < fm then false else t.is_active }

/-! ### IoU and association scores -/

/-- `(box[2] - box[0]) * (box[3] - box[1])`. -/
def boxArea (b : Box) : ℚ := (b.x2 - b.x1) * (b.y2 - b.y1)

/-- Intersection area, clamped at zero in each dimension. -/
def interArea (b1 b2 : Box) : ℚ :=
  max 0 (min b1.x2 b2.x2 - max b1.x1 b2.x1) * max 0 (min b1.y2 b2.y2 - max b1.y1 b2.y1)

/-- `area1 + area2 - inter`. -/
def unionArea (b1 b2 : Box) : ℚ := boxArea b1 + boxArea b2 - interArea b1 b2

/-- `SORTTracker._iou`: intersection over union, with the division guarded
by `union > 0`. -/
def SORTTracker._iou (b1 b2 : Box) : ℚ :=
  if 0 < unionArea b1 b2 then interArea b1 b2 / unionArea b1 b2 else 0

/-- One entry of `dist_matrix`: `max(0, 1 - dist / distance_threshold)` with
`dist` the euclidean distance between the two centers. -/
noncomputable def distScore (dc tc : ℝ × ℝ) (threshold : ℝ) : ℝ :=
  max 0 (1 - Real.sqrt ((dc.1 - tc.1) ^ 2 + (dc.2 - tc.2) ^ 2) / threshold)

/-- Detection center, `((x1 + x2) / 2, (y1 + y2) / 2)` with true division. -/
noncomputable def detCenter (b : Box) : ℝ × ℝ :=
  (((b.x1 + b.x2 : ℚ) : ℝ) / 2, ((b.y1 + b.y2 : ℚ) : ℝ) / 2)

/-- A track's stored (floor-divided) center, as a point of the plane. -/
noncomputable def trackCenter (t : TrackedObject) : ℝ × ℝ :=
  ((t.center.1 : ℝ), (t.center.2 : ℝ))

/-- `combined_matrix = np.maximum(iou_matrix, dist_matrix * 0.5)`, as a total
function on indices; out-of-range entries (never consulted by the matcher)
are zero. -/
noncomputable def combinedMatrix (threshold : ℝ) (boxes : List Box)
    (tracks : List TrackedObject) : ℕ → ℕ → ℝ :=
  fun i j =>
    match boxes[i]?, tracks[j]? with
    | some db, some t =>
        max ((SORTTracker._iou db t.bbox : ℚ) : ℝ)
          (distScore (detCenter db) (trackCenter t) threshold * 0.5)
    | _, _ => 0

/-! ### Greedy matching -/

/-- All index pairs of an `M × N` matrix in row-major order. -/
def pairList (M N : ℕ) : List (ℕ × ℕ) :=
  ((List.range M).map (fun i => (List.range N).map (fun j => (i, j)))).flatten

/-- Row-major first occurrence of the maximal entry, i.e.
`np.unravel_index(np.argmax(m), m.shape)`; `none` on an empty matrix. -/
noncomputable def bestPair (m : ℕ → ℕ → ℝ) : List (ℕ × ℕ) → Option (ℕ × ℕ)
  | [] => none
  | p :: rest =>
    match bestPair m rest with
    | none => some p
    | some q => if m p.1 p.2 < m q.1 q.2 then some q else some p

/-- `m[r, :] = 0; m[:, c] = 0`. -/
def zeroRowCol (m : ℕ → ℕ → ℝ) (r c : ℕ) : ℕ → ℕ → ℝ :=
  fun i j => if i = r ∨ j = c then 0 else m i j

/-- The greedy selection loop of `SORTTracker._match`: pick the globally
best remaining score, stop when it drops below the threshold, otherwise
commit the pair and zero out its row and column.  The Python loop is
unbounded; the recursion is indexed by fuel. -/
noncomputable def greedyMatch (thr : ℝ) : ℕ → (ℕ → ℕ → ℝ) → ℕ → ℕ → List (ℕ × ℕ)
  | 0, _, _, _ => []
  | fuel + 1, m, M, N =>
    match bestPair m (pairList M N) with
    | none => []
    | some p =>
      if m p.1 p.2 < thr then []
      else p :: greedyMatch thr fuel (zeroRowCol m p.1 p.2) M N

/-- `SORTTracker._match`: returns
`(matched_det, matched_trk, unmatched_det, unmatched_trk)`.  The fuel
`min M N + 1` is enough for the loop to reach its stopping condition
whenever the threshold is positive (claim C9). -/
noncomputable def SORTTracker._match (thr : ℝ) (mat : ℕ → ℕ → ℝ)
    (track_ids : List ℕ) (num_det : ℕ) : List ℕ × List ℕ × List ℕ × List ℕ :=
  if num_det * track_ids.length = 0 then
    ([], [], List.range num_det, track_ids)
  else
    let pairs := greedyMatch thr (min num_det track_ids.length + 1) mat num_det track_ids.length
    let matched_det := pairs.map (fun p => p.1)
    let matched_trk := pairs.map (fun p => track_ids.getD p.2 0)
    let unmatched_det := (List.range num_det).filter (fun i => !(matched_det.contains i))
    let unmatched_trk := track_ids.filter (fun tid => !(matched_trk.contains tid))
    (matched_det, matched_trk, unmatched_det, unmatched_trk)

/-! ### The tracking session -/

/-- The state of one `SORTTracker` instance.  `tracks` is the
insertion-ordered dict `self.tracks` as an association list. -/
structure SORTTracker where
  max_age : ℕ
  min_hits : ℕ
  iou_threshold : ℝ
  distance_threshold : ℝ
  tracks : List (ℕ × TrackedObject)
  next_id : ℕ
  frame_count : ℕ

/-- `SORTTracker.__init__`. -/
def mkSORTTracker (max_age min_hits : ℕ) (iou_threshold distance_threshold : ℝ) :
    SORTTracker :=
  { max_age := max_age, min_hits := min_hits, iou_threshold := iou_threshold,
    distance_threshold := distance_threshold, tracks := [], next_id := 1, frame_count := 0 }

/-- `SORTTracker._create_track`, taking the detection together with its
already-extracted bbox (`update` reads every `d["bbox"]` before any track is
created, so by this point the key is known to be present). -/
def SORTTracker._create_track (s : SORTTracker) (d : Detection) (b : Box) :
    SORTTracker × ℕ :=
  let center : ℚ × ℚ := (pyHalf (b.x1 + b.x2), pyHalf (b.y1 + b.y2))
  let track : TrackedObject :=
    { id := s.next_id, class_name := d.class_name.getD "unknown", bbox := b,
      center := center, confidence := d.confidence.getD 1,
      orientation := d.orientation.getD 0,
      position_history := [], orientation_history := [], frames_tracked := 0,
      frames_missing := 0, is_active := true, velocity := (0, 0) }
  ({ s with tracks := s.tracks ++ [(s.next_id, track)], next_id := s.next_id + 1 },
    s.next_id)

/-- `SORTTracker._cleanup`: drop every track that is inactive or has
`frames_missing > max_age`. -/
def SORTTracker._cleanup (s : SORTTracker) : SORTTracker :=
  { s with
    tracks := s.tracks.filter
      (fun p => p.2.is_active && decide (p.2.frames_missing ≤ s.max_age)) }

/-- `SORTTracker._get_active_tracks`: active tracks with at least
`min_hits` successful matches. -/
def SORTTracker._get_active_tracks (s : SORTTracker) : List TrackedObject :=
  (s.tracks.map Prod.snd).filter
    (fun t => t.is_active && decide (s.min_hits ≤ t.frames_tracked))

/-- `SORTTracker.get_all_tracks`. -/
def SORTTracker.get_all_tracks (s : SORTTracker) : List TrackedObject :=
  s.tracks.map Prod.snd

/-- `SORTTracker.get_track`. -/
def SORTTracker.get_track (s : SORTTracker) (tid : ℕ) : Option TrackedObject :=
  (s.tracks.find? (fun p => p.1 == tid)).map Prod.snd

/-- `SORTTracker.reset`. -/
def SORTTracker.reset (s : SORTTracker) : SORTTracker :=
  { s with tracks := [], next_id := 1, frame_count := 0 }

/-- `[d["bbox"] for d in detections]`: `none` models the `KeyError` raised
by the `det_boxes` comprehension when any detection misses its bbox. -/
def extractBoxes : List Detection → Option (List Box)
  | [] => some []
  | d :: ds =>
    match d.bbox, extractBoxes ds with
    | some b, some bs => some (b :: bs)
    | _, _ => none

/-- Replace the value stored under key `tid` (in-place `tracks[tid].update`). -/
noncomputable def updateTrackAt (ts : List (ℕ × TrackedObject)) (tid : ℕ)
    (b : Box) (conf : ℚ) (ori : Option ℝ) : List (ℕ × TrackedObject) :=
  ts.map (fun p => if p.1 = tid then (p.1, p.2.update b conf ori) else p)

/-- The `mark all tracks missing` step of the empty-detections branch. -/
def markAllMissing (s : SORTTracker) : SORTTracker :=
  { s with tracks := s.tracks.map (fun p => (p.1, p.2.mark_missing)) }

/-- The `first frame or no tracks` branch: create one track per detection. -/
def createAllTracks (ds : List Detection) (boxes : List Box) (s : SORTTracker) :
    SORTTracker :=
  (ds.zip boxes).foldl (fun st p => (st._create_track p.1 p.2).1) s

/-- The `update matched tracks` loop over `zip(matched_det, matched_trk)`. -/
noncomputable def applyMatched (ds : List Detection) (boxes : List Box)
    (matched : List (ℕ × ℕ)) (s : SORTTracker) : SORTTracker :=
  matched.foldl (fun st q =>
    match ds[q.1]?, boxes[q.1]? with
    | some d, some b =>
      { st with tracks := updateTrackAt st.tracks q.2 b (d.confidence.getD 1) d.orientation }
    | _, _ => st) s

/-- The `mark unmatched tracks missing` loop. -/
def markUnmatchedTracks (unmatched_trk : List ℕ) (s : SORTTracker) : SORTTracker :=
  { s with
    tracks := s.tracks.map
      (fun (p : ℕ × TrackedObject) =>
        if unmatched_trk.contains p.1 then (p.1, p.2.mark_missing) else p) }

/-- The `create tracks for unmatched detections` loop. -/
def createUnmatched (ds : List Detection) (boxes : List Box)
    (unmatched_det : List ℕ) (s : SORTTracker) : SORTTracker :=
  unmatched_det.foldl (fun st i =>
    match ds[i]?, boxes[i]? with
    | some d, some b => (st._create_track d b).1
    | _, _ => st) s

/-- The whole matching branch of `update`: score matrix, greedy matching,
matched-track refresh, aging of unmatched tracks, spawning of unmatched
detections, and the final cleanup. -/
noncomputable def matchPipeline (s : SORTTracker) (ds : List Detection)
    (boxes : List Box) : SORTTracker :=
  let s1 := { s with frame_count := s.frame_count + 1 }
  let track_ids := s.tracks.map Prod.fst
  let mat := combinedMatrix s.distance_threshold boxes (s.tracks.map Prod.snd)
  let res := SORTTracker._match s.iou_threshold mat track_ids ds.length
  let s2 := applyMatched ds boxes (res.1.zip res.2.1) s1
  let s3 := markUnmatchedTracks res.2.2.2 s2
  let s4 := createUnmatched ds boxes res.2.2.1 s3
  s4._cleanup

/-- `SORTTracker.update`, one full frame.  Result `none` models the
`KeyError` aborting the call (no track is touched in that case). -/
noncomputable def SORTTracker.update (s : SORTTracker) (ds : List Detection) :
    Option (SORTTracker × List TrackedObject) :=
  if ds.isEmpty then
    let s2 := markAllMissing { s with frame_count := s.frame_count + 1 }
    some (s2, s2._get_active_tracks)
  else
    match extractBoxes ds with
    | none => none
    | some boxes =>
      if s.tracks.isEmpty then
        let s2 := createAllTracks ds boxes { s with frame_count := s.frame_count + 1 }
        some (s2, s2._get_active_tracks)
      else
        let s5 := matchPipeline s ds boxes
        some (s5, s5._get_active_tracks)

/-- Feed a sequence of frames, collecting the per-frame return values of
`update`; `none` as soon as one frame raises. -/
noncomputable def runOuts : SORTTracker → List (List Detection) →
    Option (SORTTracker × List (List TrackedObject))
  | s, [] => some (s, [])
  | s, ds :: rest =>
    match s.update ds with
    | none => none
    | some q =>
      match runOuts q.1 rest with
      | none => none
      | some r => some (r.1, q.2 :: r.2)

/-- Final tracker state after a sequence of frames. -/
noncomputable def runTracker (s : SORTTracker) (frames : List (List Detection)) :
    Option SORTTracker :=
  (runOuts s frames).map Prod.fst

/-! ### Calibration (`camera_manager.py`) -/

/-- `CalibrationData`.  The homography is a 3 × 3 real matrix; `none` when
no calibration has been computed.  (The embedding models the
`CV2_AVAILABLE` path; the cv2-less path returns the same identity
fallback.) -/
structure CalibrationData where
  image_points : List (ℝ × ℝ)
  game_points : List (ℝ × ℝ)
  homography_matrix : Option (Fin 3 → Fin 3 → ℝ)
  game_width : ℝ
  game_height : ℝ
  is_calibrated : Bool

/-- A fresh `CalibrationData()` with its dataclass defaults. -/
def mkCalibrationData : CalibrationData :=
  { image_points := [], game_points := [], homography_matrix := none,
    game_width := 1920, game_height := 1080, is_calibrated := false }

/-- `CalibrationData.transform_point`: apply the homography when present
(`cv2.perspectiveTransform`), otherwise return the point unchanged. -/
noncomputable def CalibrationData.transform_point (c : CalibrationData)
    (px py : ℝ) : ℝ × ℝ :=
  match c.homography_matrix with
  | some H =>
      let w := H 2 0 * px + H 2 1 * py + H 2 2
      ((H 0 0 * px + H 0 1 * py + H 0 2) / w, (H 1 0 * px + H 1 1 * py + H 1 2) / w)
  | none => (px, py)

/-! ### Concrete scenario data -/

/-- The 40 × 40 box at (100, 100) of the spec's worked scenario. -/
def boxB : Box := ⟨100, 100, 140, 140⟩

/-- A well-formed detection carrying `boxB` and nothing else. -/
def detB : Detection :=
  { bbox := some boxB, class_name := none, confidence := none, orientation := none }

/-- A second well-formed detection, 200 px to the right of `detB`. -/
def boxB2 : Box := ⟨300, 100, 340, 140⟩

/-- Detection carrying `boxB2`. -/
def detB2 : Detection :=
  { bbox := some boxB2, class_name := none, confidence := none, orientation := none }

/-- A malformed detection: its dict has no `bbox` key. -/
def detBad : Detection :=
  { bbox := none, class_name := some "goblin", confidence := some 1, orientation := none }

/-- The track spawned from `detB` after `k` successful matches. -/
def trackB (k : ℕ) : TrackedObject :=
  { id := 1, class_name := "unknown", bbox := boxB, center := (120, 120), confidence := 1,
    orientation := 0, position_history := List.replicate (min k 10) (120, 120),
    orientation_history := [], frames_tracked := k, frames_missing := 0,
    is_active := true, velocity := (0, 0) }

/-- `trackB 1` after `k` consecutive `mark_missing` calls. -/
def trackMissB (k : ℕ) : TrackedObject :=
  { trackB 1 with frames_missing := k, is_active := decide (k ≤ 10) }

/-- Tracker state after feeding `[detB]` for `n ≥ 1` consecutive frames to a
fresh tracker with the given `max_age` / `min_hits` and default thresholds. -/
def singleState (ma mh n : ℕ) : SORTTracker :=
  { max_age := ma, min_hits := mh, iou_threshold := 0.15, distance_threshold := 100,
    tracks := [(1, trackB (n - 1))], next_id := 2, frame_count := n }

/-- The uncalibrated `CalibrationData` with a configured 100 × 50 board. -/
def calib0 : CalibrationData :=
  { mkCalibrationData with game_width := 100, game_height := 50 }

/-! ## Claim C10: totality and range of `SORTTracker._iou` -/

theorem interArea_nonneg (b1 b2 : Box) : 0 ≤ interArea b1 b2 :=
  mul_nonneg (le_max_left 0 _) (le_max_left 0 _)

theorem interArea_le_left (b1 b2 : Box) (h1 : b1.wf) : interArea b1 b2 ≤ boxArea b1 := by
  rcases h1 with ⟨hx, hy⟩
  have hw : max 0 (min b1.x2 b2.x2 - max b1.x1 b2.x1) ≤ b1.x2 - b1.x1 := by
    apply max_le (by linarith)
    have := min_le_left b1.x2 b2.x2
    have := le_max_left b1.x1 b2.x1
    linarith
  have hh : max 0 (min b1.y2 b2.y2 - max b1.y1 b2.y1) ≤ b1.y2 - b1.y1 := by
    apply max_le (by linarith)
    have := min_le_left b1.y2 b2.y2
    have := le_max_left b1.y1 b2.y1
    linarith
  exact mul_le_mul hw hh (le_max_left 0 _) (by linarith)

theorem interArea_le_right (b1 b2 : Box) (h2 : b2.wf) : interArea b1 b2 ≤ boxArea b2 := by
  rcases h2 with ⟨hx, hy⟩
  have hw : max 0 (min b1.x2 b2.x2 - max b1.x1 b2.x1) ≤ b2.x2 - b2.x1 := by
    apply max_le (by linarith)
    have := min_le_right b1.x2 b2.x2
    have := le_max_right b1.x1 b2.x1
    linarith
  have hh : max 0 (min b1.y2 b2.y2 - max b1.y1 b2.y1) ≤ b2.y2 - b2.y1 := by
    apply max_le (by linarith)
    have := min_le_right b1.y2 b2.y2
    have := le_max_right b1.y1 b2.y1
    linarith
  exact mul_le_mul hw hh (le_max_left 0 _) (by linarith)

/-- Claim C10: `SORTTracker._iou` is total — the division is guarded and the
function returns 0 whenever the union area is not positive — and for
well-formed boxes the result lies in the unit interval. -/
theorem iou_guarded_and_in_unit_interval (b1 b2 : Box) :
    (unionArea b1 b2 ≤ 0 → SORTTracker._iou b1 b2 = 0) ∧
    (b1.wf → b2.wf →
      0 ≤ SORTTracker._iou b1 b2 ∧ SORTTracker._iou b1 b2 ≤ 1) := by
  constructor
  · intro h
    simp [SORTTracker._iou, not_lt.mpr h]
  · intro h1 h2
    by_cases hu : 0 < unionArea b1 b2
    · have hinter := interArea_nonneg b1 b2
      have hle : interArea b1 b2 ≤ unionArea b1 b2 := by
        have := interArea_le_left b1 b2 h1
        have := interArea_le_right b1 b2 h2
        unfold unionArea
        linarith
      constructor
      · simp only [SORTTracker._iou, if_pos hu]
        exact div_nonneg hinter hu.le
      · simp only [SORTTracker._iou, if_pos hu]
        exact (div_le_one hu).mpr hle
    · simp [SORTTracker._iou, hu]

/-- Witness for C10 at the degenerate box `(0, 0, 0, 0)`, where the union
area is zero and the guard fires. -/
theorem iou_guarded_witness :
    SORTTracker._iou ⟨0, 0, 0, 0⟩ ⟨0, 0, 0, 0⟩ = 0 ∧
    0 ≤ SORTTracker._iou ⟨0, 0, 0, 0⟩ ⟨0, 0, 0, 0⟩ ∧
    SORTTracker._iou ⟨0, 0, 0, 0⟩ ⟨0, 0, 0, 0⟩ ≤ 1 :=
  ⟨(iou_guarded_and_in_unit_interval ⟨0, 0, 0, 0⟩ ⟨0, 0, 0, 0⟩).1 (by
      norm_num [unionArea, boxArea, interArea]),
   (iou_guarded_and_in_unit_interval ⟨0, 0, 0, 0⟩ ⟨0, 0, 0, 0⟩).2
     ⟨le_refl 0, le_refl 0⟩ ⟨le_refl 0, le_refl 0⟩⟩

/-! ## Claim C4: the uncalibrated fallback of `transform_point` -/

/-- Counterexample to claim C4: with no homography but a configured
100 × 50 board, `transform_point` returns the pixel point unchanged — not
the proportional scaling from the 1280 × 720 default image dimensions to
the board that the claim describes. -/
theorem transform_point_no_scaling_cex :
    calib0.transform_point 640 360 = (640, 360) ∧
    calib0.transform_point 640 360 ≠
      (640 / 1280 * calib0.game_width, 360 / 720 * calib0.game_height) := by
  constructor
  · simp [calib0, mkCalibrationData, CalibrationData.transform_point]
  · simp only [calib0, mkCalibrationData, CalibrationData.transform_point]
    intro h
    have := congrArg Prod.fst h
    norm_num at this

/-- Amended claim C4: when no homography matrix is present,
`transform_point` is the identity on the pixel point, regardless of any
configured board size, and never fails. -/
theorem transform_point_uncalibrated_identity (c : CalibrationData) (px py : ℝ)
    (h : c.homography_matrix = none) :
    c.transform_point px py = (px, py) := by
  simp [CalibrationData.transform_point, h]

/-- Witness for the amended C4 at a concrete uncalibrated state. -/
theorem transform_point_uncalibrated_identity_witness :
    calib0.homography_matrix = none ∧ calib0.transform_point 17 42 = (17, 42) :=
  ⟨rfl, transform_point_uncalibrated_identity calib0 17 42 rfl⟩

/-! ## Claim C5: the hybrid association score -/

theorem distScore_nonneg (dc tc : ℝ × ℝ) (T : ℝ) : 0 ≤ distScore dc tc T := by
  unfold distScore
  exact le_max_left _ _

theorem distScore_le_one (dc tc : ℝ × ℝ) (T : ℝ) (hT : 0 < T) : distScore dc tc T ≤ 1 := by
  unfold distScore
  apply max_le (by norm_num)
  have hs := Real.sqrt_nonneg ((dc.1 - tc.1) ^ 2 + (dc.2 - tc.2) ^ 2)
  have hd : 0 ≤ Real.sqrt ((dc.1 - tc.1) ^ 2 + (dc.2 - tc.2) ^ 2) / T :=
    div_nonneg hs hT.le
  linarith

/-- Claim C5: every entry of the combined score matrix equals
`max(iou, 0.5 * proximity)`; the weighted proximity part never exceeds 1/2,
so whenever `iou ≥ 1/2` the score is the IoU itself (a pure-proximity score
never outranks a strong IoU match). -/
theorem assoc_score_formula (T : ℝ) (hT : 0 < T) (boxes : List Box)
    (tracks : List TrackedObject) (i j : ℕ) (hi : i < boxes.length)
    (hj : j < tracks.length) :
    combinedMatrix T boxes tracks i j =
      max ((SORTTracker._iou boxes[i] tracks[j].bbox : ℚ) : ℝ)
        (distScore (detCenter boxes[i]) (trackCenter tracks[j]) T * 0.5) ∧
    distScore (detCenter boxes[i]) (trackCenter tracks[j]) T * 0.5 ≤ 1 / 2 ∧
    (1 / 2 ≤ ((SORTTracker._iou boxes[i] tracks[j].bbox : ℚ) : ℝ) →
      combinedMatrix T boxes tracks i j =
        ((SORTTracker._iou boxes[i] tracks[j].bbox : ℚ) : ℝ)) := by
  have hcap : distScore (detCenter boxes[i]) (trackCenter tracks[j]) T * 0.5 ≤ 1 / 2 := by
    have h1 := distScore_le_one (detCenter boxes[i]) (trackCenter tracks[j]) T hT
    linarith
  have hm : combinedMatrix T boxes tracks i j =
      max ((SORTTracker._iou boxes[i] tracks[j].bbox : ℚ) : ℝ)
        (distScore (detCenter boxes[i]) (trackCenter tracks[j]) T * 0.5) := by
    simp [combinedMatrix, List.getElem?_eq_getElem, hi, hj]
  refine ⟨hm, hcap, fun hiou => ?_⟩
  rw [hm]
  exact max_eq_left (le_trans hcap hiou)

/-- Witness for C5 at a concrete 1 × 1 configuration. -/
theorem assoc_score_formula_witness :
    (0 : ℝ) < 100 ∧
    (combinedMatrix 100 [boxB] [trackB 0] 0 0 =
        max ((SORTTracker._iou boxB (trackB 0).bbox : ℚ) : ℝ)
          (distScore (detCenter boxB) (trackCenter (trackB 0)) 100 * 0.5) ∧
      distScore (detCenter boxB) (trackCenter (trackB 0)) 100 * 0.5 ≤ 1 / 2 ∧
      (1 / 2 ≤ ((SORTTracker._iou boxB (trackB 0).bbox : ℚ) : ℝ) →
        combinedMatrix 100 [boxB] [trackB 0] 0 0 =
          ((SORTTracker._iou boxB (trackB 0).bbox : ℚ) : ℝ))) :=
  ⟨by norm_num,
    assoc_score_formula 100 (by norm_num) [boxB] [trackB 0] 0 0 (by decide) (by decide)⟩

/-! ## Claim C7: circular mean of the orientation history -/

theorem fmod_nonneg_lt (x : ℝ) : 0 ≤ fmod x 360 ∧ fmod x 360 < 360 := by
  have hx : (360 : ℝ) * (x / 360) = x := by field_simp
  constructor
  · have hf := Int.floor_le (x / 360)
    unfold fmod
    nlinarith
  · have hf := Int.lt_floor_add_one (x / 360)
    unfold fmod
    nlinarith

theorem circular_mean_mem_Ico (l : List ℝ) :
    0 ≤ circular_mean l ∧ circular_mean l < 360 := by
  unfold circular_mean
  by_cases h : l = []
  · rw [if_pos h]
    norm_num
  · rw [if_neg h]
    exact fmod_nonneg_lt _

theorem atan2_div_div (y x n : ℝ) (hn : 0 < n) : atan2 (y / n) (x / n) = atan2 y x := by
  unfold atan2
  have hz : (⟨x / n, y / n⟩ : ℂ) = ((n⁻¹ : ℝ) : ℂ) * ⟨x, y⟩ := by
    apply Complex.ext
    · simp [Complex.mul_re, Complex.ofReal_re, Complex.ofReal_im]
      ring
    · simp [Complex.mul_im, Complex.ofReal_re, Complex.ofReal_im]
      ring
  rw [hz, Complex.arg_real_mul _ (inv_pos.mpr hn)]

theorem smooth_angle_eq_circular_mean (l : List ℝ) (h : l ≠ []) :
    smooth_angle l = circular_mean l := by
  unfold smooth_angle circular_mean
  rw [if_neg h, if_neg h]
  have hn : (0 : ℝ) < l.length := by
    exact_mod_cast List.length_pos.mpr h
  rw [atan2_div_div _ _ _ hn]

theorem circular_mean_350_10 : circular_mean [350, 10] = 0 := by
  have hne : ([350, 10] : List ℝ) ≠ [] := by simp
  unfold circular_mean
  rw [if_neg hne]
  have hd : deg2rad 350 = 2 * Real.pi - deg2rad 10 := by
    unfold deg2rad
    ring
  simp only [List.map_cons, List.map_nil, List.sum_cons, List.sum_nil,
    List.length_cons, List.length_nil]
  rw [hd, Real.sin_two_pi_sub, Real.cos_two_pi_sub]
  have hS : -Real.sin (deg2rad 10) + (Real.sin (deg2rad 10) + 0) = 0 := by ring
  rw [hS]
  have hcos : 0 < Real.cos (deg2rad 10) := by
    apply Real.cos_pos_of_mem_Ioo
    have hpi := Real.pi_pos
    constructor
    · unfold deg2rad
      nlinarith
    · unfold deg2rad
      nlinarith
  have harg : atan2 (0 / ((0 + 1 + 1 : ℕ) : ℝ))
      ((Real.cos (deg2rad 10) + (Real.cos (deg2rad 10) + 0)) / ((0 + 1 + 1 : ℕ) : ℝ)) = 0 := by
    unfold atan2
    rw [Complex.arg_eq_zero_iff]
    constructor
    · show (0 : ℝ) ≤ (Real.cos (deg2rad 10) + (Real.cos (deg2rad 10) + 0)) / ((0 + 1 + 1 : ℕ) : ℝ)
      positivity
    · show (0 : ℝ) / ((0 + 1 + 1 : ℕ) : ℝ) = 0
      norm_num
  rw [harg]
  unfold rad2deg fmod
  norm_num

/-- Claim C7: for a non-empty history, the smoothed heading of
`simple_tracker.py` coincides with the averaged-components formula of
`tracker.py` (the `arctan2` recombination is scale invariant), every
circular mean lies in `[0, 360)`, and the history `[350°, 10°]` smooths to
exactly `0°`. -/
theorem circular_mean_spec :
    (∀ l : List ℝ, l ≠ [] → smooth_angle l = circular_mean l) ∧
    (∀ l : List ℝ, 0 ≤ circular_mean l ∧ circular_mean l < 360) ∧
    circular_mean [350, 10] = 0 :=
  ⟨smooth_angle_eq_circular_mean, circular_mean_mem_Ico, circular_mean_350_10⟩

/-- Witness for C7 at the concrete wraparound history. -/
theorem circular_mean_spec_witness :
    (([350, 10] : List ℝ) ≠ []) ∧ smooth_angle [350, 10] = circular_mean [350, 10] :=
  ⟨by simp, circular_mean_spec.1 [350, 10] (by simp)⟩

/-! ## Claims C6 and C9: the greedy matcher -/

theorem greedyMatch_succ_none {m : ℕ → ℕ → ℝ} {M N : ℕ}
    (hb : bestPair m (pairList M N) = none) (thr : ℝ) (fuel : ℕ) :
    greedyMatch thr (fuel + 1) m M N = [] := by
  unfold greedyMatch
  rw [hb]

theorem greedyMatch_succ_some {m : ℕ → ℕ → ℝ} {M N : ℕ} {q : ℕ × ℕ}
    (hb : bestPair m (pairList M N) = some q) (thr : ℝ) (fuel : ℕ) :
    greedyMatch thr (fuel + 1) m M N =
      if m q.1 q.2 < thr then []
      else q :: greedyMatch thr fuel (zeroRowCol m q.1 q.2) M N := by
  simp only [greedyMatch, hb]

theorem mem_pairList (p : ℕ × ℕ) (M N : ℕ) :
    p ∈ pairList M N ↔ p.1 < M ∧ p.2 < N := by
  unfold pairList
  simp only [List.mem_flatten, List.mem_map, List.mem_range]
  constructor
  · rintro ⟨l, ⟨i, hi, rfl⟩, hp⟩
    obtain ⟨j, hj, rfl⟩ := List.mem_map.mp hp
    exact ⟨hi, List.mem_range.mp hj⟩
  · rintro ⟨h1, h2⟩
    exact ⟨(List.range N).map (fun j => (p.1, j)), ⟨p.1, h1, rfl⟩,
      List.mem_map.mpr ⟨p.2, List.mem_range.mpr h2, rfl⟩⟩

theorem bestPair_cons_none (m : ℕ → ℕ → ℝ) (rest : List (ℕ × ℕ))
    (hb : bestPair m rest = none) (p : ℕ × ℕ) :
    bestPair m (p :: rest) = some p := by
  unfold bestPair
  rw [hb]

theorem bestPair_cons_some {m : ℕ → ℕ → ℝ} {rest : List (ℕ × ℕ)} {r : ℕ × ℕ}
    (hb : bestPair m rest = some r) (p : ℕ × ℕ) :
    bestPair m (p :: rest) = if m p.1 p.2 < m r.1 r.2 then some r else some p := by
  unfold bestPair
  rw [hb]

theorem bestPair_mem (m : ℕ → ℕ → ℝ) :
    ∀ (l : List (ℕ × ℕ)) (q : ℕ × ℕ), bestPair m l = some q → q ∈ l := by
  intro l
  induction l with
  | nil => intro q h; simp [bestPair] at h
  | cons p rest ih =>
    intro q h
    rcases hb : bestPair m rest with _ | r
    · rw [bestPair_cons_none m rest hb] at h
      simp only [Option.some.injEq] at h
      rw [← h]
      exact List.mem_cons_self p rest
    · rw [bestPair_cons_some hb] at h
      split_ifs at h with hlt
      · simp only [Option.some.injEq] at h
        rw [← h]
        exact List.mem_cons_of_mem p (ih r hb)
      · simp only [Option.some.injEq] at h
        rw [← h]
        exact List.mem_cons_self p rest

theorem greedyMatch_ne_row (thr : ℝ) (hthr : 0 < thr) (M N : ℕ) :
    ∀ (fuel : ℕ) (m : ℕ → ℕ → ℝ) (r : ℕ), (∀ j, m r j = 0) →
      ∀ p ∈ greedyMatch thr fuel m M N, p.1 ≠ r := by
  intro fuel
  induction fuel with
  | zero => intro m r _ p hp; simp [greedyMatch] at hp
  | succ fuel ih =>
    intro m r hr p hp
    rcases hb : bestPair m (pairList M N) with _ | q
    · rw [greedyMatch_succ_none hb] at hp; simp at hp
    · rw [greedyMatch_succ_some hb] at hp
      split_ifs at hp with hq
      · simp at hp
      · rcases List.mem_cons.mp hp with rfl | hp'
        · intro hqr
          rw [hqr, hr p.2] at hq
          exact hq hthr
        · exact ih (zeroRowCol m q.1 q.2) r (fun j => by simp [zeroRowCol, hr]) p hp'

theorem greedyMatch_ne_col (thr : ℝ) (hthr : 0 < thr) (M N : ℕ) :
    ∀ (fuel : ℕ) (m : ℕ → ℕ → ℝ) (c : ℕ), (∀ i, m i c = 0) →
      ∀ p ∈ greedyMatch thr fuel m M N, p.2 ≠ c := by
  intro fuel
  induction fuel with
  | zero => intro m c _ p hp; simp [greedyMatch] at hp
  | succ fuel ih =>
    intro m c hc p hp
    rcases hb : bestPair m (pairList M N) with _ | q
    · rw [greedyMatch_succ_none hb] at hp; simp at hp
    · rw [greedyMatch_succ_some hb] at hp
      split_ifs at hp with hq
      · simp at hp
      · rcases List.mem_cons.mp hp with rfl | hp'
        · intro hqc
          rw [hqc, hc p.1] at hq
          exact hq hthr
        · exact ih (zeroRowCol m q.1 q.2) c (fun i => by simp [zeroRowCol, hc]) p hp'

theorem greedyMatch_mem_spec (thr : ℝ) (hthr : 0 < thr) (M N : ℕ) (m0 : ℕ → ℕ → ℝ) :
    ∀ (fuel : ℕ) (m : ℕ → ℕ → ℝ), (∀ i j, m i j = m0 i j ∨ m i j = 0) →
      ∀ p ∈ greedyMatch thr fuel m M N,
        thr ≤ m0 p.1 p.2 ∧ p.1 < M ∧ p.2 < N := by
  intro fuel
  induction fuel with
  | zero => intro m _ p hp; simp [greedyMatch] at hp
  | succ fuel ih =>
    intro m hm p hp
    rcases hb : bestPair m (pairList M N) with _ | q
    · rw [greedyMatch_succ_none hb] at hp; simp at hp
    · rw [greedyMatch_succ_some hb] at hp
      split_ifs at hp with hq
      · simp at hp
      · rcases List.mem_cons.mp hp with rfl | hp'
        · have hbounds := (mem_pairList p M N).mp (bestPair_mem m _ p hb)
          refine ⟨?_, hbounds⟩
          rcases hm p.1 p.2 with he | he
          · rw [← he]
            exact not_lt.mp hq
          · rw [he] at hq
            exact absurd hthr hq
        · refine ih (zeroRowCol m q.1 q.2) (fun i j => ?_) p hp'
          by_cases hz : i = q.1 ∨ j = q.2
          · right; simp [zeroRowCol, hz]
          · rw [show zeroRowCol m q.1 q.2 i j = m i j by simp [zeroRowCol, hz]]
            exact hm i j

theorem greedyMatch_pairwise (thr : ℝ) (hthr : 0 < thr) (M N : ℕ) :
    ∀ (fuel : ℕ) (m : ℕ → ℕ → ℝ),
      List.Pairwise (fun p q : ℕ × ℕ => p.1 ≠ q.1 ∧ p.2 ≠ q.2)
        (greedyMatch thr fuel m M N) := by
  intro fuel
  induction fuel with
  | zero => intro m; simp [greedyMatch]
  | succ fuel ih =>
    intro m
    rcases hb : bestPair m (pairList M N) with _ | q
    · rw [greedyMatch_succ_none hb]
      simp
    · rw [greedyMatch_succ_some hb]
      split_ifs with hq
      · simp
      · refine List.Pairwise.cons (fun p hp => ?_) (ih _)
        constructor
        · exact Ne.symm (greedyMatch_ne_row thr hthr M N fuel _ q.1
            (fun j => by simp [zeroRowCol]) p hp)
        · exact Ne.symm (greedyMatch_ne_col thr hthr M N fuel _ q.2
            (fun i => by simp [zeroRowCol]) p hp)

theorem greedyMatch_length_le (thr : ℝ) (hthr : 0 < thr) (fuel M N : ℕ)
    (m : ℕ → ℕ → ℝ) : (greedyMatch thr fuel m M N).length ≤ min M N := by
  have hpw := greedyMatch_pairwise thr hthr M N fuel m
  have hmem := greedyMatch_mem_spec thr hthr M N m fuel m (fun _ _ => Or.inl rfl)
  have hkey : ∀ (f : ℕ × ℕ → ℕ) (K : ℕ), ((greedyMatch thr fuel m M N).map f).Nodup →
      (∀ p ∈ greedyMatch thr fuel m M N, f p < K) →
      (greedyMatch thr fuel m M N).length ≤ K := by
    intro f K hnd hlt
    have hcard : ((greedyMatch thr fuel m M N).map f).toFinset.card =
        (greedyMatch thr fuel m M N).length := by
      rw [List.toFinset_card_of_nodup hnd, List.length_map]
    have hsub : ((greedyMatch thr fuel m M N).map f).toFinset ⊆ Finset.range K := by
      intro x hx
      rw [List.mem_toFinset, List.mem_map] at hx
      obtain ⟨p, hp, rfl⟩ := hx
      exact Finset.mem_range.mpr (hlt p hp)
    have := Finset.card_le_card hsub
    rw [hcard, Finset.card_range] at this
    exact this
  refine le_min ?_ ?_
  · exact hkey Prod.fst M (List.Pairwise.map _ (fun a b h => h.1) hpw)
      (fun p hp => (hmem p hp).2.1)
  · exact hkey Prod.snd N (List.Pairwise.map _ (fun a b h => h.2) hpw)
      (fun p hp => (hmem p hp).2.2)

theorem greedyMatch_agree (thr : ℝ) (M N : ℕ) :
    ∀ (f1 : ℕ) (m : ℕ → ℕ → ℝ) (f2 : ℕ),
      (greedyMatch thr f1 m M N).length < f1 → f1 ≤ f2 →
      greedyMatch thr f2 m M N = greedyMatch thr f1 m M N := by
  intro f1
  induction f1 with
  | zero => intro m f2 h; exact absurd h (Nat.not_lt_zero _)
  | succ f1 ih =>
    intro m f2 hlen hle
    obtain ⟨f2', rfl⟩ : ∃ k, f2 = k + 1 := ⟨f2 - 1, by omega⟩
    rcases hb : bestPair m (pairList M N) with _ | q
    · rw [greedyMatch_succ_none hb, greedyMatch_succ_none hb]
    · rw [greedyMatch_succ_some hb] at hlen
      rw [greedyMatch_succ_some hb, greedyMatch_succ_some hb]
      split_ifs with hq
      · rfl
      · rw [if_neg hq] at hlen
        simp only [List.length_cons] at hlen
        have hlen' : (greedyMatch thr f1 (zeroRowCol m q.1 q.2) M N).length < f1 := by omega
        rw [ih (zeroRowCol m q.1 q.2) f2' hlen' (by omega)]

/-- Claim C6: with a positive match threshold, the greedy matcher commits a
set of pairs in which every detection index and every track index occurs at
most once, and every committed pair's score in the input matrix reaches the
threshold (the loop stops at the first maximum below it).  In the source the
threshold is `iou_threshold` (default 0.15, which equals the smaller of the
IoU threshold and 0.5 × the maximal weighted proximity score). -/
theorem greedy_match_one_to_one (thr : ℝ) (hthr : 0 < thr) (fuel M N : ℕ)
    (m : ℕ → ℕ → ℝ) :
    List.Pairwise (fun p q : ℕ × ℕ => p.1 ≠ q.1 ∧ p.2 ≠ q.2)
      (greedyMatch thr fuel m M N) ∧
    ∀ p ∈ greedyMatch thr fuel m M N, thr ≤ m p.1 p.2 ∧ p.1 < M ∧ p.2 < N :=
  ⟨greedyMatch_pairwise thr hthr M N fuel m,
   greedyMatch_mem_spec thr hthr M N m fuel m (fun _ _ => Or.inl rfl)⟩

/-- Witness for C6 on a concrete 1 × 1 matrix. -/
theorem greedy_match_one_to_one_witness :
    (0 : ℝ) < 0.15 ∧
    (List.Pairwise (fun p q : ℕ × ℕ => p.1 ≠ q.1 ∧ p.2 ≠ q.2)
      (greedyMatch 0.15 2 (fun _ _ => 1) 1 1) ∧
    ∀ p ∈ greedyMatch 0.15 2 (fun _ _ => 1) 1 1,
      (0.15 : ℝ) ≤ (fun _ _ => (1 : ℝ)) p.1 p.2 ∧ p.1 < 1 ∧ p.2 < 1) :=
  ⟨by norm_num, greedy_match_one_to_one 0.15 (by norm_num) 2 1 1 (fun _ _ => 1)⟩

/-- Claim C9: with a positive threshold the greedy loop commits at most
`min M N` pairs — each commit zeroes a row and a column whose entry reached
the threshold — and the run is already complete at fuel `min M N + 1`, so
the unbounded Python loop terminates within `min M N` iterations. -/
theorem greedy_match_bounded_iterations (thr : ℝ) (hthr : 0 < thr) (fuel M N : ℕ)
    (m : ℕ → ℕ → ℝ) :
    (greedyMatch thr fuel m M N).length ≤ min M N ∧
    (min M N + 1 ≤ fuel →
      greedyMatch thr fuel m M N = greedyMatch thr (min M N + 1) m M N) := by
  refine ⟨greedyMatch_length_le thr hthr fuel M N m, fun hf => ?_⟩
  exact greedyMatch_agree thr M N (min M N + 1) m fuel
    (lt_of_le_of_lt (greedyMatch_length_le thr hthr (min M N + 1) M N m) (by omega)) hf

/-- Witness for C9 on a concrete 2 × 3 matrix. -/
theorem greedy_match_bounded_iterations_witness :
    (0 : ℝ) < 0.15 ∧
    ((greedyMatch 0.15 7 (fun i j => if i = j then 1 else 0) 2 3).length ≤ min 2 3 ∧
    (min 2 3 + 1 ≤ 7 →
      greedyMatch 0.15 7 (fun i j => if i = j then 1 else 0) 2 3 =
        greedyMatch 0.15 (min 2 3 + 1) (fun i j => if i = j then 1 else 0) 2 3)) :=
  ⟨by norm_num,
    greedy_match_bounded_iterations 0.15 (by norm_num) 7 2 3 (fun i j => if i = j then 1 else 0)⟩

/-! ## Claim C2: a malformed detection aborts the whole frame -/

theorem extractBoxes_eq_none {ds : List Detection} {d : Detection}
    (hd : d ∈ ds) (hb : d.bbox = none) : extractBoxes ds = none := by
  induction ds with
  | nil => simp at hd
  | cons a rest ih =>
    unfold extractBoxes
    rcases List.mem_cons.mp hd with rfl | hmem
    · rw [hb]
    · rw [ih hmem]
      cases a.bbox <;> rfl

/-- Counterexample to claim C2: one detection without a `bbox` key next to a
well-formed one makes `update` raise (`KeyError` in the `det_boxes`
comprehension), so the well-formed detection is not processed either — the
frame is dropped wholesale. -/
theorem update_bad_detection_cex :
    (mkSORTTracker 30 1 0.15 100).update [detB, detBad] = none := by
  rfl

/-- Amended claim C2: whenever any detection of a non-empty frame is missing
its `bbox`, `update` aborts with a `KeyError` before touching any track; no
detection of that frame (malformed or not) is processed. -/
theorem update_bad_detection_aborts (s : SORTTracker) (ds : List Detection)
    (d : Detection) (hd : d ∈ ds) (hb : d.bbox = none) :
    s.update ds = none := by
  have hemp : ds.isEmpty = false := by
    cases ds
    · simp at hd
    · rfl
  unfold SORTTracker.update
  rw [hemp, extractBoxes_eq_none hd hb]
  rfl

/-- Witness for the amended C2. -/
theorem update_bad_detection_aborts_witness :
    detBad ∈ [detBad, detB2] ∧ detBad.bbox = none ∧
    (mkSORTTracker 30 1 0.15 100).update [detBad, detB2] = none :=
  ⟨List.mem_cons_self detBad [detB2], rfl,
    update_bad_detection_aborts (mkSORTTracker 30 1 0.15 100) [detBad, detB2] detBad
      (List.mem_cons_self detBad [detB2]) rfl⟩

/-! ## Claim C8: track ids are fresh and monotone -/

/-- Invariant: every stored key is below the id counter and every track's
`id` field equals its key. -/
def idsBound (s : SORTTracker) : Prop :=
  ∀ p ∈ s.tracks, p.1 < s.next_id ∧ p.2.id = p.1

/-- Key-and-id view of the track table. -/
def keysIds (s : SORTTracker) : List (ℕ × ℕ) :=
  s.tracks.map (fun p => (p.1, p.2.id))

theorem TrackedObject.update_id (t : TrackedObject) (b : Box) (c : ℚ) (o : Option ℝ) :
    (t.update b c o).id = t.id := by
  unfold TrackedObject.update
  cases o <;> rfl

theorem TrackedObject.mark_missing_id (t : TrackedObject) :
    t.mark_missing.id = t.id := rfl

theorem idsBound_of_keysIds {s t : SORTTracker} (h : keysIds t = keysIds s)
    (hn : t.next_id = s.next_id) (hb : idsBound s) : idsBound t := by
  intro p hp
  have hmem : (p.1, p.2.id) ∈ keysIds s := by
    rw [← h]
    exact List.mem_map.mpr ⟨p, hp, rfl⟩
  obtain ⟨q, hq, he⟩ := List.mem_map.mp hmem
  have he1 : q.1 = p.1 := (Prod.ext_iff.mp he).1
  have he2 : q.2.id = p.2.id := (Prod.ext_iff.mp he).2
  obtain ⟨hq1, hq2⟩ := hb q hq
  rw [hn]
  exact ⟨he1 ▸ hq1, by rw [← he2, hq2, he1]⟩

theorem create_track_spec (st : SORTTracker) (d : Detection) (b : Box)
    (hb : idsBound st) :
    idsBound (st._create_track d b).1 ∧
    st.next_id ≤ (st._create_track d b).1.next_id ∧
    ∀ p ∈ (st._create_track d b).1.tracks, p ∈ st.tracks ∨ st.next_id ≤ p.1 := by
  refine ⟨?_, ?_, ?_⟩
  · intro p hp
    rcases List.mem_append.mp hp with hmem | hmem
    · obtain ⟨h1, h2⟩ := hb p hmem
      exact ⟨Nat.lt_succ_of_lt h1, h2⟩
    · simp only [List.mem_singleton] at hmem
      rw [hmem]
      exact ⟨Nat.lt_succ_self _, rfl⟩
  · exact Nat.le_succ _
  · intro p hp
    rcases List.mem_append.mp hp with hmem | hmem
    · exact Or.inl hmem
    · simp only [List.mem_singleton] at hmem
      rw [hmem]
      exact Or.inr (le_refl _)

theorem keysIds_updateTrackAt (ts : List (ℕ × TrackedObject)) (tid : ℕ)
    (b : Box) (c : ℚ) (o : Option ℝ) :
    (updateTrackAt ts tid b c o).map (fun p => (p.1, p.2.id)) =
      ts.map (fun p => (p.1, p.2.id)) := by
  unfold updateTrackAt
  rw [List.map_map]
  apply List.map_congr_left
  intro p _
  by_cases h : p.1 = tid
  · simp [h, TrackedObject.update_id]
  · simp [h]

theorem applyMatched_cons (ds : List Detection) (boxes : List Box)
    (q : ℕ × ℕ) (L : List (ℕ × ℕ)) (st : SORTTracker) :
    applyMatched ds boxes (q :: L) st =
      applyMatched ds boxes L
        (match ds[q.1]?, boxes[q.1]? with
         | some d, some b =>
           { st with tracks := updateTrackAt st.tracks q.2 b (d.confidence.getD 1) d.orientation }
         | _, _ => st) := rfl

theorem keysIds_applyMatched (ds : List Detection) (boxes : List Box) :
    ∀ (L : List (ℕ × ℕ)) (st : SORTTracker),
      keysIds (applyMatched ds boxes L st) = keysIds st ∧
      (applyMatched ds boxes L st).next_id = st.next_id := by
  intro L
  induction L with
  | nil => intro st; exact ⟨rfl, rfl⟩
  | cons q L ih =>
    intro st
    rw [applyMatched_cons]
    have hstep : ∀ st' : SORTTracker,
        keysIds st' = keysIds st → st'.next_id = st.next_id →
        keysIds (applyMatched ds boxes L st') = keysIds st ∧
        (applyMatched ds boxes L st').next_id = st.next_id := by
      intro st' h1 h2
      obtain ⟨i1, i2⟩ := ih st'
      exact ⟨i1.trans h1, i2.trans h2⟩
    rcases ds[q.1]? with _ | d
    · exact hstep st rfl rfl
    · rcases boxes[q.1]? with _ | b
      · exact hstep st rfl rfl
      · exact hstep _ (keysIds_updateTrackAt st.tracks q.2 b (d.confidence.getD 1) d.orientation) rfl

theorem keysIds_markUnmatchedTracks (u : List ℕ) (s : SORTTracker) :
    keysIds (markUnmatchedTracks u s) = keysIds s ∧
    (markUnmatchedTracks u s).next_id = s.next_id := by
  refine ⟨?_, rfl⟩
  unfold keysIds markUnmatchedTracks
  rw [List.map_map]
  apply List.map_congr_left
  intro p _
  by_cases h : p.1 ∈ u
  · simp [h, TrackedObject.mark_missing_id]
  · simp [h]

theorem keysIds_markAllMissing (s : SORTTracker) :
    keysIds (markAllMissing s) = keysIds s ∧
    (markAllMissing s).next_id = s.next_id := by
  refine ⟨?_, rfl⟩
  unfold keysIds markAllMissing
  rw [List.map_map]
  apply List.map_congr_left
  intro p _
  simp [TrackedObject.mark_missing_id]

theorem createAllTracks_spec (L : List (Detection × Box)) :
    ∀ st : SORTTracker, idsBound st →
      idsBound (L.foldl (fun st p => (st._create_track p.1 p.2).1) st) ∧
      st.next_id ≤ (L.foldl (fun st p => (st._create_track p.1 p.2).1) st).next_id ∧
      ∀ p ∈ (L.foldl (fun st p => (st._create_track p.1 p.2).1) st).tracks,
        p ∈ st.tracks ∨ st.next_id ≤ p.1 := by
  induction L with
  | nil => intro st hb; exact ⟨hb, le_refl _, fun p hp => Or.inl hp⟩
  | cons a L ih =>
    intro st hb
    rw [List.foldl_cons]
    obtain ⟨c1, c2, c3⟩ := create_track_spec st a.1 a.2 hb
    obtain ⟨i1, i2, i3⟩ := ih _ c1
    refine ⟨i1, le_trans c2 i2, fun p hp => ?_⟩
    rcases i3 p hp with hmem | hge
    · rcases c3 p hmem with hmem' | hge'
      · exact Or.inl hmem'
      · exact Or.inr hge'
    · exact Or.inr (le_trans c2 hge)

theorem createUnmatched_cons (ds : List Detection) (boxes : List Box)
    (i : ℕ) (L : List ℕ) (st : SORTTracker) :
    createUnmatched ds boxes (i :: L) st =
      createUnmatched ds boxes L
        (match ds[i]?, boxes[i]? with
         | some d, some b => (st._create_track d b).1
         | _, _ => st) := rfl

theorem createUnmatched_spec (ds : List Detection) (boxes : List Box) :
    ∀ (L : List ℕ) (st : SORTTracker), idsBound st →
      idsBound (createUnmatched ds boxes L st) ∧
      st.next_id ≤ (createUnmatched ds boxes L st).next_id ∧
      ∀ p ∈ (createUnmatched ds boxes L st).tracks,
        p ∈ st.tracks ∨ st.next_id ≤ p.1 := by
  intro L
  induction L with
  | nil => intro st hb; exact ⟨hb, le_refl _, fun p hp => Or.inl hp⟩
  | cons i L ih =>
    intro st hb
    have hstep : ∀ st' : SORTTracker, idsBound st' → st.next_id ≤ st'.next_id →
        (∀ p ∈ st'.tracks, p ∈ st.tracks ∨ st.next_id ≤ p.1) →
        idsBound (createUnmatched ds boxes L st') ∧
        st.next_id ≤ (createUnmatched ds boxes L st').next_id ∧
        ∀ p ∈ (createUnmatched ds boxes L st').tracks,
          p ∈ st.tracks ∨ st.next_id ≤ p.1 := by
      intro st' h1 h2 h3
      obtain ⟨i1, i2, i3⟩ := ih st' h1
      refine ⟨i1, le_trans h2 i2, fun p hp => ?_⟩
      rcases i3 p hp with hmem | hge
      · exact h3 p hmem
      · exact Or.inr (le_trans h2 hge)
    rw [createUnmatched_cons]
    rcases ds[i]? with _ | d
    · exact hstep st hb (le_refl _) (fun p hp => Or.inl hp)
    · rcases boxes[i]? with _ | b
      · exact hstep st hb (le_refl _) (fun p hp => Or.inl hp)
      · obtain ⟨c1, c2, c3⟩ := create_track_spec st d b hb
        exact hstep _ c1 c2 c3

theorem cleanup_mem {s : SORTTracker} {p : ℕ × TrackedObject}
    (hp : p ∈ s._cleanup.tracks) : p ∈ s.tracks :=
  (List.mem_filter.mp hp).1

/-- Claim C8: `update` preserves the id invariant, never decreases the id
counter, and every key present afterwards is either an old key or a freshly
allocated one at or above the old counter — ids are monotone and never
reused within a session. -/
theorem update_ids_fresh (s : SORTTracker) (ds : List Detection) (s' : SORTTracker)
    (out : List TrackedObject) (hb : idsBound s) (hu : s.update ds = some (s', out)) :
    idsBound s' ∧ s.next_id ≤ s'.next_id ∧
    ∀ p ∈ s'.tracks, p.1 ∈ s.tracks.map Prod.fst ∨ s.next_id ≤ p.1 := by
  have hkey : ∀ t : SORTTracker, keysIds t = keysIds s → ∀ p ∈ t.tracks,
      p.1 ∈ s.tracks.map Prod.fst := by
    intro t ht p hp
    have hmem : (p.1, p.2.id) ∈ keysIds s := by
      rw [← ht]
      exact List.mem_map.mpr ⟨p, hp, rfl⟩
    obtain ⟨q, hq, he⟩ := List.mem_map.mp hmem
    have he1 : q.1 = p.1 := (Prod.ext_iff.mp he).1
    exact List.mem_map.mpr ⟨q, hq, he1⟩
  unfold SORTTracker.update at hu
  by_cases hemp : ds.isEmpty
  · rw [if_pos hemp] at hu
    simp only [Option.some.injEq, Prod.mk.injEq] at hu
    obtain ⟨hs', _⟩ := hu
    subst hs'
    set s1 : SORTTracker := { s with frame_count := s.frame_count + 1 } with hs1
    have hk := keysIds_markAllMissing s1
    have hks1 : keysIds s1 = keysIds s := rfl
    refine ⟨idsBound_of_keysIds (hk.1.trans hks1) hk.2 hb, le_of_eq hk.2.symm, ?_⟩
    intro p hp
    exact Or.inl (hkey _ (hk.1.trans hks1) p hp)
  · rw [if_neg hemp] at hu
    rcases hex : extractBoxes ds with _ | boxes
    · rw [hex] at hu
      exact Option.noConfusion hu
    · simp only [hex] at hu
      by_cases htr : s.tracks.isEmpty
      · rw [if_pos htr] at hu
        simp only [Option.some.injEq, Prod.mk.injEq] at hu
        obtain ⟨hs', _⟩ := hu
        subst hs'
        have hb1 : idsBound ({ s with frame_count := s.frame_count + 1 }) := hb
        obtain ⟨c1, c2, c3⟩ := createAllTracks_spec (ds.zip boxes) _ hb1
        refine ⟨c1, c2, fun p hp => ?_⟩
        rcases c3 p hp with hmem | hge
        · exact Or.inl (List.mem_map.mpr ⟨p, hmem, rfl⟩)
        · exact Or.inr hge
      · rw [if_neg htr] at hu
        simp only [Option.some.injEq, Prod.mk.injEq] at hu
        obtain ⟨hs', _⟩ := hu
        subst hs'
        simp only [matchPipeline]
        set s1 : SORTTracker := { s with frame_count := s.frame_count + 1 } with hs1
        set res := SORTTracker._match s.iou_threshold
          (combinedMatrix s.distance_threshold boxes (s.tracks.map Prod.snd))
          (s.tracks.map Prod.fst) ds.length with hres
        set s2 := applyMatched ds boxes (res.1.zip res.2.1) s1 with hs2
        set s3 := markUnmatchedTracks res.2.2.2 s2 with hs3
        have hk2 := keysIds_applyMatched ds boxes (res.1.zip res.2.1) s1
        have hk3 := keysIds_markUnmatchedTracks res.2.2.2 s2
        have hkk : keysIds s3 = keysIds s := hk3.1.trans hk2.1
        have hkn : s3.next_id = s.next_id := hk3.2.trans hk2.2
        have hb3 : idsBound s3 := idsBound_of_keysIds hkk hkn hb
        obtain ⟨c1, c2, c3⟩ := createUnmatched_spec ds boxes res.2.2.1 s3 hb3
        refine ⟨?_, ?_, ?_⟩
        · intro p hp
          exact c1 p (cleanup_mem hp)
        · rw [show (createUnmatched ds boxes res.2.2.1 s3)._cleanup.next_id =
              (createUnmatched ds boxes res.2.2.1 s3).next_id from rfl]
          rw [← hkn]
          exact c2
        · intro p hp
          rcases c3 p (cleanup_mem hp) with hmem | hge
          · exact Or.inl (hkey s3 hkk p hmem)
          · exact Or.inr (hkn ▸ hge)

/-- The state reached by a fresh tracker after one frame with the two
detections `detB` and `detB2`. -/
def twoState : SORTTracker :=
  createAllTracks [detB, detB2] [boxB, boxB2]
    { mkSORTTracker 30 1 0.15 100 with frame_count := 1 }

/-- Witness for C8: two simultaneous detections arriving at a fresh tracker
spawn exactly two tracks with fresh, distinct ids 1 and 2. -/
theorem update_ids_fresh_witness :
    idsBound (mkSORTTracker 30 1 0.15 100) ∧
    (mkSORTTracker 30 1 0.15 100).update [detB, detB2] =
      some (twoState, twoState._get_active_tracks) ∧
    twoState.tracks.map Prod.fst = [1, 2] ∧
    (idsBound twoState ∧ (mkSORTTracker 30 1 0.15 100).next_id ≤ twoState.next_id ∧
      ∀ p ∈ twoState.tracks, p.1 ∈ (mkSORTTracker 30 1 0.15 100).tracks.map Prod.fst ∨
        (mkSORTTracker 30 1 0.15 100).next_id ≤ p.1) := by
  have hb : idsBound (mkSORTTracker 30 1 0.15 100) := by
    intro p hp
    exact absurd hp (List.not_mem_nil p)
  have hval : (mkSORTTracker 30 1 0.15 100).update [detB, detB2] =
      some (twoState, twoState._get_active_tracks) := rfl
  exact ⟨hb, hval, rfl,
    update_ids_fresh (mkSORTTracker 30 1 0.15 100) [detB, detB2] twoState
      twoState._get_active_tracks hb hval⟩

/-! ## Claims C1 and C3: scenario infrastructure -/

/-- `singleState ma mh 2` after `k` further empty frames. -/
def agedState (ma mh k : ℕ) : SORTTracker :=
  { max_age := ma, min_hits := mh, iou_threshold := 0.15, distance_threshold := 100,
    tracks := [(1, trackMissB k)], next_id := 2, frame_count := k + 2 }

theorem dequeAppend_replicate (ml k : ℕ) (c : α) :
    dequeAppend ml (List.replicate (min k ml) c) c =
      List.replicate (min (k + 1) ml) c := by
  unfold dequeAppend
  rw [List.length_replicate]
  by_cases h : min k ml + 1 ≤ ml
  · rw [if_pos h, ← List.replicate_succ']
    congr 1
    omega
  · rw [if_neg h]
    have hm : min k ml = ml := by omega
    rw [hm, ← List.replicate_succ', List.drop_replicate]
    congr 1
    omega

theorem getD_replicate (n i : ℕ) (c d : α) (h : i < n) :
    (List.replicate n c).getD i d = c := by
  rw [List.getD_eq_getElem?_getD, List.getElem?_replicate, if_pos h]
  rfl

theorem pyHalf_240 : pyHalf (240 : ℚ) = 120 := by
  norm_num [pyHalf]

/-- One successful re-match of the stationary `boxB` detection advances
`trackB k` to `trackB (k + 1)`. -/
theorem trackB_update (k : ℕ) :
    (trackB k).update boxB 1 none = trackB (k + 1) := by
  unfold TrackedObject.update trackB boxB
  simp only [pyHalf_240]
  rw [show ((100 : ℚ) + 140) = 240 by norm_num, pyHalf_240]
  rw [dequeAppend_replicate 10 k ((120 : ℚ), (120 : ℚ))]
  by_cases h2 : 2 ≤ min (k + 1) 10
  · rw [List.length_replicate, if_pos h2,
      getD_replicate _ _ _ _ (by omega : min (k + 1) 10 - 2 < min (k + 1) 10)]
    norm_num
  · rw [List.length_replicate, if_neg h2]

theorem mark_missing_active_flag (k : ℕ) :
    (if 10 < k + 1 then false else decide (k ≤ 10)) = decide (k + 1 ≤ 10) := by
  by_cases h : 10 < k + 1
  · rw [if_pos h]
    exact (decide_eq_false_iff_not.mpr (by omega)).symm
  · rw [if_neg h]
    exact decide_eq_decide.mpr (by omega)

theorem trackMissB_mark (k : ℕ) :
    (trackMissB k).mark_missing = trackMissB (k + 1) := by
  unfold trackMissB TrackedObject.mark_missing trackB
  simp only [mark_missing_active_flag]

/-- Case lemma: the empty-frame branch of `update`. -/
theorem update_empty_eq (s : SORTTracker) :
    s.update [] = some (markAllMissing { s with frame_count := s.frame_count + 1 },
      (markAllMissing { s with frame_count := s.frame_count + 1 })._get_active_tracks) := rfl

/-- Case lemma: the no-existing-tracks branch of `update`. -/
theorem update_create_eq (s : SORTTracker) (ds : List Detection) (boxes : List Box)
    (hne : ds.isEmpty = false) (hex : extractBoxes ds = some boxes)
    (htr : s.tracks.isEmpty = true) :
    s.update ds =
      some (createAllTracks ds boxes { s with frame_count := s.frame_count + 1 },
        (createAllTracks ds boxes { s with frame_count := s.frame_count + 1 })._get_active_tracks) := by
  unfold SORTTracker.update
  rw [hne, hex, htr]
  rfl

/-- Case lemma: the matching branch of `update`. -/
theorem update_match_eq (s : SORTTracker) (ds : List Detection) (boxes : List Box)
    (hne : ds.isEmpty = false) (hex : extractBoxes ds = some boxes)
    (htr : s.tracks.isEmpty = false) :
    s.update ds = some (matchPipeline s ds boxes,
      (matchPipeline s ds boxes)._get_active_tracks) := by
  unfold SORTTracker.update
  rw [hne, hex, htr]
  rfl

theorem runOuts_cons {s s' : SORTTracker} {ds : List Detection}
    {out : List TrackedObject} {rest : List (List Detection)} {sf : SORTTracker}
    {outs : List (List TrackedObject)} (h : s.update ds = some (s', out))
    (hrest : runOuts s' rest = some (sf, outs)) :
    runOuts s (ds :: rest) = some (sf, out :: outs) := by
  simp only [runOuts, h, hrest]

theorem runTracker_cons {s s' : SORTTracker} {ds : List Detection}
    {out : List TrackedObject} (rest : List (List Detection))
    (h : s.update ds = some (s', out)) :
    runTracker s (ds :: rest) = runTracker s' rest := by
  unfold runTracker
  simp only [runOuts, h]
  rcases hro : runOuts s' rest with _ | r <;> simp [hro]

/-- Evaluation of the active-track filter on the single-track state. -/
theorem active_singleState (ma mh n : ℕ) :
    (singleState ma mh n)._get_active_tracks =
      if mh ≤ n - 1 then [trackB (n - 1)] else [] := by
  unfold SORTTracker._get_active_tracks singleState
  simp only [List.map_cons, List.map_nil, List.filter_cons, List.filter_nil]
  simp [trackB]

theorem iou_boxB_self : SORTTracker._iou boxB boxB = 1 := by
  norm_num [SORTTracker._iou, unionArea, interArea, boxArea, boxB]

theorem iou_boxB2_boxB : SORTTracker._iou boxB2 boxB = 0 := by
  norm_num [SORTTracker._iou, unionArea, interArea, boxArea, boxB, boxB2]

/-- The score of the stationary `boxB` detection against any track currently
sitting at `boxB` is exactly 1. -/
theorem mat_singleB (t : TrackedObject) (hb : t.bbox = boxB)
    (hc : t.center = (120, 120)) :
    combinedMatrix 100 [boxB] [t] 0 0 = 1 := by
  have hd : distScore (detCenter boxB) (trackCenter t) 100 = 1 := by
    unfold distScore detCenter trackCenter boxB
    rw [hc]
    norm_num [Real.sqrt_zero]
  unfold combinedMatrix
  simp only [List.getElem?_cons_zero]
  rw [hb, hd, iou_boxB_self]
  norm_num

/-- The score of the displaced `boxB2` detection against a track sitting at
`boxB` is exactly 0: the boxes are disjoint and the centers are 200 px
apart, past the 100 px distance threshold. -/
theorem mat_singleB2 (t : TrackedObject) (hb : t.bbox = boxB)
    (hc : t.center = (120, 120)) :
    combinedMatrix 100 [boxB2] [t] 0 0 = 0 := by
  have hd : distScore (detCenter boxB2) (trackCenter t) 100 = 0 := by
    unfold distScore detCenter trackCenter boxB2
    rw [hc]
    norm_num
    rw [show (40000 : ℝ) = 200 ^ 2 by norm_num,
      Real.sqrt_sq (by norm_num : (0 : ℝ) ≤ 200)]
    norm_num
  unfold combinedMatrix
  simp only [List.getElem?_cons_zero]
  rw [hb, hd, iou_boxB2_boxB]
  norm_num

/-- A 1 × 1 score matrix whose single entry is 1 commits the single pair. -/
theorem greedy_single_hit (m : ℕ → ℕ → ℝ) (h1 : m 0 0 = 1) :
    greedyMatch 0.15 2 m 1 1 = [(0, 0)] := by
  have hpl : pairList 1 1 = [(0, 0)] := rfl
  have hbp : bestPair m (pairList 1 1) = some (0, 0) := by
    rw [hpl]
    exact bestPair_cons_none m [] rfl (0, 0)
  rw [greedyMatch_succ_some hbp, if_neg (by rw [h1]; norm_num)]
  have hbp2 : bestPair (zeroRowCol m 0 0) (pairList 1 1) = some (0, 0) := by
    rw [hpl]
    exact bestPair_cons_none (zeroRowCol m 0 0) [] rfl (0, 0)
  rw [greedyMatch_succ_some hbp2, if_pos (by norm_num [zeroRowCol])]

/-- A 1 × 1 score matrix whose single entry is 0 commits nothing. -/
theorem greedy_single_miss (m : ℕ → ℕ → ℝ) (h0 : m 0 0 = 0) :
    greedyMatch 0.15 2 m 1 1 = [] := by
  have hbp : bestPair m (pairList 1 1) = some (0, 0) := by
    rw [show pairList 1 1 = [(0, 0)] from rfl]
    exact bestPair_cons_none m [] rfl (0, 0)
  rw [greedyMatch_succ_some hbp, if_pos (by rw [h0]; norm_num)]

theorem match_single_hit (mat : ℕ → ℕ → ℝ) (h1 : mat 0 0 = 1) :
    SORTTracker._match 0.15 mat [1] 1 = ([0], [1], [], []) := by
  unfold SORTTracker._match
  rw [if_neg (by decide)]
  have : greedyMatch 0.15 (min 1 (List.length [1]) + 1) mat 1 (List.length [1]) =
      [(0, 0)] := greedy_single_hit mat h1
  rw [this]
  rfl

theorem match_single_miss (mat : ℕ → ℕ → ℝ) (h0 : mat 0 0 = 0) :
    SORTTracker._match 0.15 mat [1] 1 = ([], [], [0], [1]) := by
  unfold SORTTracker._match
  rw [if_neg (by decide)]
  have : greedyMatch 0.15 (min 1 (List.length [1]) + 1) mat 1 (List.length [1]) =
      [] := greedy_single_miss mat h0
  rw [this]
  rfl

/-- Evaluating the whole matching branch on the stationary single-detection
frame: the single track is re-matched and advanced, nothing is purged. -/
theorem pipeline_singleState (ma mh n : ℕ) (hn : 1 ≤ n) :
    matchPipeline (singleState ma mh n) [detB] [boxB] = singleState ma mh (n + 1) := by
  have hsub : n - 1 + 1 = n := by omega
  have hdec : decide (0 ≤ ma) = true := decide_eq_true (Nat.zero_le ma)
  unfold matchPipeline
  simp only [singleState, List.map_cons, List.map_nil, List.length_cons,
    List.length_nil, Nat.zero_add]
  rw [match_single_hit (combinedMatrix 100 [boxB] [trackB (n - 1)])
    (mat_singleB (trackB (n - 1)) rfl rfl)]
  simp only [applyMatched, List.zip_cons_cons, List.zip_nil_right, List.foldl_cons,
    List.foldl_nil, List.getElem?_cons_zero, updateTrackAt, List.map_cons, List.map_nil,
    detB, Option.getD_none, if_pos rfl, trackB_update, hsub, markUnmatchedTracks,
    List.contains_nil, Bool.false_eq_true, if_false, createUnmatched,
    SORTTracker._cleanup, List.filter_cons, List.filter_nil]
  simp [trackB, hdec, singleState]

/-- One more stationary `boxB` frame advances `singleState n` to
`singleState (n+1)`; the track is returned once `min_hits` is reached. -/
theorem update_singleState (ma mh n : ℕ) (hn : 1 ≤ n) :
    (singleState ma mh n).update [detB] =
      some (singleState ma mh (n + 1), if mh ≤ n then [trackB n] else []) := by
  rw [update_match_eq (singleState ma mh n) [detB] [boxB] rfl rfl rfl,
    pipeline_singleState ma mh n hn, active_singleState ma mh (n + 1)]
  rfl

theorem createAll_singleB (ma mh : ℕ) :
    createAllTracks [detB] [boxB]
      { mkSORTTracker ma mh 0.15 100 with
        frame_count := (mkSORTTracker ma mh 0.15 100).frame_count + 1 } =
      singleState ma mh 1 := by
  unfold createAllTracks SORTTracker._create_track mkSORTTracker singleState trackB detB
  simp only [List.zip_cons_cons, List.zip_nil_right, List.foldl_cons, List.foldl_nil]
  norm_num [pyHalf, boxB]

/-- The very first stationary frame creates track 1 with
`frames_tracked = 0`. -/
theorem update_first_detB (ma mh : ℕ) :
    (mkSORTTracker ma mh 0.15 100).update [detB] =
      some (singleState ma mh 1, if mh ≤ 0 then [trackB 0] else []) := by
  rw [update_create_eq (mkSORTTracker ma mh 0.15 100) [detB] [boxB] rfl rfl rfl,
    createAll_singleB ma mh, active_singleState ma mh 1]

theorem run_singleState (ma mh : ℕ) :
    ∀ (k j : ℕ), 1 ≤ j →
      runOuts (singleState ma mh j) (List.replicate k [detB]) =
        some (singleState ma mh (j + k),
          (List.range k).map (fun i => if mh ≤ j + i then [trackB (j + i)] else [])) := by
  intro k
  induction k with
  | zero =>
    intro j hj
    simp [runOuts]
  | succ k ih =>
    intro j hj
    rw [List.replicate_succ,
      runOuts_cons (update_singleState ma mh j hj) (ih (j + 1) (by omega))]
    have e : j + 1 + k = j + (k + 1) := by omega
    rw [e, List.range_succ_eq_map, List.map_cons, List.map_map, Nat.add_zero]
    refine congrArg some (Prod.ext rfl ?_)
    show _ :: _ = _ :: _
    congr 1
    apply List.map_congr_left
    intro i _
    simp only [Function.comp, Nat.succ_eq_add_one]
    have e2 : j + 1 + i = j + (i + 1) := by omega
    rw [e2]

/-- Counterexample to claim C3: a brand-new track starts with
`frames_tracked = 0` (not 1), and with the default `min_hits = 1` the very
first `update` of a stationary detection returns no track at all — so at
`N = 1 ≥ min_hits`, `frames_tracked ≠ N`. -/
theorem track_creation_cex :
    runOuts (mkSORTTracker 30 1 0.15 100) [[detB]] = some (singleState 30 1 1, [[]]) ∧
    (singleState 30 1 1).get_all_tracks.map (fun t => t.frames_tracked) = [0] ∧
    ¬ (singleState 30 1 1).get_all_tracks.map (fun t => t.frames_tracked) = [1] := by
  refine ⟨?_, rfl, by decide⟩
  have h0 : runOuts (mkSORTTracker 30 1 0.15 100) ([detB] :: []) =
      some (singleState 30 1 1, [if (1 : ℕ) ≤ 0 then [trackB 0] else []]) :=
    runOuts_cons (update_first_detB 30 1) rfl
  rw [show ([[detB]] : List (List Detection)) = [detB] :: [] from rfl, h0]
  norm_num

/-- Amended claim C3: an unmatched detection spawns a track with
`frames_tracked = 0` and `frames_missing = 0`; feeding the same stationary
detection for `n` consecutive frames keeps the single track id 1 alive with
`frames_tracked = n - 1`, and each frame's `update` returns exactly that
track once its `frames_tracked` counter (the frame index minus one) has
reached `min_hits`, and nothing before that. -/
theorem identity_stability_amended (ma mh n : ℕ) (hn : 1 ≤ n) :
    runOuts (mkSORTTracker ma mh 0.15 100) (List.replicate n [detB]) =
      some (singleState ma mh n,
        (List.range n).map (fun k => if mh ≤ k then [trackB k] else [])) := by
  obtain ⟨k, rfl⟩ : ∃ k, n = k + 1 := ⟨n - 1, by omega⟩
  rw [List.replicate_succ,
    runOuts_cons (update_first_detB ma mh) (run_singleState ma mh k 1 (le_refl 1))]
  have e : 1 + k = k + 1 := by omega
  rw [e, List.range_succ_eq_map, List.map_cons, List.map_map]
  refine congrArg some (Prod.ext rfl ?_)
  show _ :: _ = _ :: _
  congr 1
  apply List.map_congr_left
  intro i _
  simp only [Function.comp, Nat.succ_eq_add_one]
  have e2 : 1 + i = i + 1 := by omega
  rw [e2]

/-- Witness for the amended C3 at `min_hits = 1`, two frames. -/
theorem identity_stability_witness :
    1 ≤ 2 ∧
    runOuts (mkSORTTracker 30 1 0.15 100) (List.replicate 2 [detB]) =
      some (singleState 30 1 2,
        (List.range 2).map (fun k => if 1 ≤ k then [trackB k] else [])) :=
  ⟨by norm_num, identity_stability_amended 30 1 2 (by norm_num)⟩

/-! ## Claim C1: aging on empty frames never purges -/

theorem update_agedState (ma mh k : ℕ) :
    (agedState ma mh k).update [] =
      some (agedState ma mh (k + 1), (agedState ma mh (k + 1))._get_active_tracks) := by
  rw [update_empty_eq]
  have h : markAllMissing { agedState ma mh k with
      frame_count := (agedState ma mh k).frame_count + 1 } = agedState ma mh (k + 1) := by
    unfold markAllMissing agedState
    simp only [List.map_cons, List.map_nil, trackMissB_mark]
  rw [h]

theorem run_agedState (ma mh : ℕ) : ∀ (k j : ℕ),
    runTracker (agedState ma mh j) (List.replicate k []) =
      some (agedState ma mh (j + k)) := by
  intro k
  induction k with
  | zero =>
    intro j
    simp [runTracker, runOuts]
  | succ k ih =>
    intro j
    rw [List.replicate_succ, runTracker_cons _ (update_agedState ma mh j), ih (j + 1)]
    have e : j + 1 + k = j + (k + 1) := by omega
    rw [e]

/-- Claim C1, evaluated at the failing input: with `max_age = 2` and a
confirmed track, feeding `max_age + 1 = 3` consecutive empty frames leaves
the track in `get_all_tracks()` — the empty-detections branch of `update`
never calls `_cleanup`, contradicting the constructor's own description of
`max_age` (frames without detection before the track is removed) — and a
track made inactive by 11 misses is resurrected by a later match instead of
being purged. -/
theorem aging_purge_cex :
    (runTracker (mkSORTTracker 2 1 0.15 100) ([[detB], [detB]] ++ List.replicate 3 [])).map
      (fun s => s.get_all_tracks.length) = some 1 ∧
    ((agedState 30 1 11).update [detB]).map
      (fun q => q.1.tracks.map (fun p => (p.1, p.2.is_active, p.2.frames_missing))) =
      some [(1, true, 0)] := by
  constructor
  · rw [show ([[detB], [detB]] ++ List.replicate 3 [] : List (List Detection)) =
      [detB] :: ([detB] :: List.replicate 3 []) from rfl]
    rw [runTracker_cons _ (update_first_detB 2 1),
      runTracker_cons _ (update_singleState 2 1 1 (le_refl 1))]
    rw [show singleState 2 1 2 = agedState 2 1 0 from rfl, run_agedState 2 1 3 0]
    rfl
  · rw [update_match_eq (agedState 30 1 11) [detB] [boxB] rfl rfl rfl]
    unfold matchPipeline
    simp only [agedState, List.map_cons, List.map_nil, List.length_cons,
      List.length_nil, Nat.zero_add]
    rw [match_single_hit (combinedMatrix 100 [boxB] [trackMissB 11])
      (mat_singleB (trackMissB 11) rfl rfl)]
    rfl

/-- The code's actual aging behavior: each empty frame increments
`frames_missing` of every track, but the empty-frame branch of `update`
never purges — the track stays in `get_all_tracks()` after any number of
empty frames, `max_age + 1` included.  Purging (removal of tracks that are
inactive or have `frames_missing > max_age`) happens only in an update with
a non-empty detection list. -/
theorem aging_empty_frames_behavior :
    (∀ ma mh k,
      runTracker (singleState ma mh 2) (List.replicate k []) =
        some (agedState ma mh k) ∧
      (agedState ma mh k).get_all_tracks = [trackMissB k] ∧
      (trackMissB k).frames_missing = k) ∧
    ((agedState 2 1 3).update [detB2]).map (fun q => q.1.tracks.map Prod.fst) =
      some [2] := by
  constructor
  · intro ma mh k
    refine ⟨?_, rfl, rfl⟩
    rw [show singleState ma mh 2 = agedState ma mh 0 from rfl, run_agedState ma mh k 0,
      Nat.zero_add]
  · rw [update_match_eq (agedState 2 1 3) [detB2] [boxB2] rfl rfl rfl]
    unfold matchPipeline
    simp only [agedState, List.map_cons, List.map_nil, List.length_cons,
      List.length_nil, Nat.zero_add]
    rw [match_single_miss (combinedMatrix 100 [boxB2] [trackMissB 3])
      (mat_singleB2 (trackMissB 3) rfl rfl)]
    rfl

end MesaRPG
